import Mathlib

/-!
Verification of the goth-deploy deployment platform against its
natural-language specification.  Go strings are modelled as lists of
byte values (`GoString`); all inputs in the claims are ASCII, where Go's
byte indexing and Lean's code-point view coincide.
-/

namespace GothDeploy

/-- Go strings viewed as byte sequences (`len`, slicing and indexing in the
Go source are byte-based). -/
abbrev GoString := List Nat

/-- Conversion from a Lean string literal to the byte-list model (code
points; identical to UTF-8 bytes on the ASCII inputs used here). -/
def gs (s : String) : GoString := s.data.map (fun c => c.toNat)

/-! ## Secrets vault (src/unnamed/part_005, `SecretsService`)

`NewSecretsService` derives the AES-256 key with
`key := make([]byte, 32); copy(key, []byte(encryptionKey))`:
the configured key string is copied into a zero-initialised 32-byte
buffer, so a short key is zero-padded and a long key truncated. -/

/-- The secrets service state: the derived 32-byte encryption key. -/
structure SecretsService where
  encryptionKey : GoString
  deriving Repr, DecidableEq

/-- Translation of `NewSecretsService` (part_005 lines 22-31): copy the
configured key into a zero-initialised 32-byte buffer. -/
def NewSecretsService (encryptionKey : GoString) : SecretsService :=
  { encryptionKey := encryptionKey.take 32 ++ List.replicate (32 - encryptionKey.length) 0 }

/-- The claim's wording for the derived key: a shorter key is zero-padded
to 32 bytes, a longer key is truncated to its first 32 bytes. -/
def paddedKey32 (k : GoString) : GoString :=
  if k.length ≤ 32 then k ++ List.replicate (32 - k.length) 0 else k.take 32

/-- GCM nonce size used by Go's `cipher.NewGCM` (12 bytes). -/
def nonceSize : Nat := 12

/-- Modelled from the spec: keystream byte of the authenticated cipher
(`crypto/aes` + `cipher.NewGCM` are Go standard library, not in src; the
spec describes "an authenticated cipher using a per-installation
symmetric key and a freshly random nonce"). -/
def gcmPad (key nonce : GoString) (i : Nat) : Nat :=
  key.sum + 3 * nonce.sum + 5 * i

/-- Modelled from the spec: position-indexed keystream application of the
cipher; xor makes it an involution, as stream encryption is. -/
def xorStream (key nonce : GoString) : Nat → GoString → GoString
  | _, [] => []
  | i, b :: rest => (b ^^^ gcmPad key nonce i) :: xorStream key nonce (i + 1) rest

/-- Modelled from the spec: the authentication tag of the cipher, a
key/nonce/ciphertext-dependent checksum byte. -/
def gcmTag (key nonce ct : GoString) : Nat :=
  key.sum + 7 * nonce.sum + 11 * ct.sum

/-- Modelled from the spec: `gcm.Seal(nil, nonce, plaintext, nil)` —
ciphertext followed by the authentication tag. -/
def gcmSeal (key nonce pt : GoString) : GoString :=
  xorStream key nonce 0 pt ++ [gcmTag key nonce (xorStream key nonce 0 pt)]

/-- Modelled from the spec: `gcm.Open(nil, nonce, data, nil)` — check the
tag, fail on mismatch or missing tag, otherwise invert the keystream. -/
def gcmOpen (key nonce data : GoString) : Option GoString :=
  match data.getLast? with
  | none => none
  | some tag =>
      if tag = gcmTag key nonce data.dropLast then
        some (xorStream key nonce 0 data.dropLast)
      else none

/-- Translation of `encrypt` (part_005 lines 34-52): draw a fresh random
nonce (modelled as the explicit `nonce` argument), then
`gcm.Seal(nonce, nonce, plaintext, nil)`, i.e. nonce ++ sealed data.
The base64 text encoding of the result (Go standard library, a bijection
onto its range) is modelled away: ciphertexts stay byte lists. -/
def SecretsService.encrypt (s : SecretsService) (nonce plaintext : GoString) : GoString :=
  nonce ++ gcmSeal s.encryptionKey nonce plaintext

/-- Translation of `decrypt` (part_005 lines 55-82): reject data shorter
than the nonce, split nonce and cipher data, and open. -/
def SecretsService.decrypt (s : SecretsService) (ciphertext : GoString) : Option GoString :=
  if ciphertext.length < nonceSize then none
  else gcmOpen s.encryptionKey (ciphertext.take nonceSize) (ciphertext.drop nonceSize)

/-- Translation of `maskValue` (part_005 lines 85-90); 42 is the byte of
the asterisk. -/
def maskValue (value : GoString) : GoString :=
  if value.length ≤ 4 then List.replicate value.length 42
  else List.replicate (value.length - 4) 42 ++ value.drop (value.length - 4)

/-- The spec's phrase "the last n characters of v". -/
def lastChars (n : Nat) (v : GoString) : GoString := (v.reverse.take n).reverse

/-! ### Basic lemmas about the cipher model -/

theorem xorStream_involutive (key nonce : GoString) :
    ∀ (i : Nat) (bs : GoString), xorStream key nonce i (xorStream key nonce i bs) = bs := by
  intro i bs
  induction bs generalizing i with
  | nil => rfl
  | cons b rest ih =>
      simp [xorStream, ih, Nat.xor_assoc]

theorem gcmOpen_gcmSeal (key nonce pt : GoString) :
    gcmOpen key nonce (gcmSeal key nonce pt) = some pt := by
  simp [gcmOpen, gcmSeal, List.getLast?_concat, List.dropLast_concat, xorStream_involutive]

theorem newSecretsService_eq (k : GoString) : NewSecretsService k = ⟨paddedKey32 k⟩ := by
  unfold NewSecretsService paddedKey32
  by_cases h : k.length ≤ 32
  · simp [h, List.take_of_length_le h]
  · have h0 : 32 - k.length = 0 := by omega
    simp [h, h0]

/-! ## Subdomain validation (src/internal/handlers/projects.go, `isValidSubdomain`) -/

/-- One byte of the class `[a-z0-9]`. -/
def isLowerAlnum (b : Nat) : Bool :=
  (97 ≤ b && b ≤ 122) || (48 ≤ b && b ≤ 57)

/-- Matcher for the anchored regex fragment `[a-z0-9-]*[a-z0-9]`:
all bytes but the last may also be a hyphen (45), the last byte is
lowercase alphanumeric. -/
def tailMatch : GoString → Bool
  | [] => false
  | [b] => isLowerAlnum b
  | b :: rest => (isLowerAlnum b || b == 45) && tailMatch rest

/-- Matcher for the anchored regex `^[a-z0-9]([a-z0-9-]*[a-z0-9])?$` used
by `isValidSubdomain` (projects.go line 385). -/
def matchesSubdomainRegex : GoString → Bool
  | [] => false
  | [b] => isLowerAlnum b
  | b :: rest => isLowerAlnum b && tailMatch rest

/-- Translation of `isValidSubdomain` (projects.go lines 380-387). -/
def isValidSubdomain (subdomain : GoString) : Bool :=
  if subdomain.length < 1 || subdomain.length > 63 then false
  else matchesSubdomainRegex subdomain

theorem tailMatch_chars {s : GoString} (h : tailMatch s = true) :
    ∀ b ∈ s, isLowerAlnum b = true ∨ b = 45 := by
  induction s with
  | nil => simp [tailMatch] at h
  | cons b rest ih =>
      cases rest with
      | nil =>
          intro c hc
          simp only [List.mem_singleton] at hc
          simp only [tailMatch] at h
          subst hc; exact Or.inl h
      | cons b2 rest2 =>
          simp only [tailMatch, Bool.and_eq_true, Bool.or_eq_true, beq_iff_eq] at h
          intro c hc
          rcases List.mem_cons.mp hc with hc | hc
          · subst hc; exact h.1.imp id id
          · exact ih h.2 c hc

theorem matchesSubdomainRegex_chars {s : GoString} (h : matchesSubdomainRegex s = true) :
    ∀ b ∈ s, isLowerAlnum b = true ∨ b = 45 := by
  cases s with
  | nil => simp [matchesSubdomainRegex] at h
  | cons b rest =>
      cases rest with
      | nil =>
          intro c hc
          simp only [List.mem_singleton] at hc
          simp only [matchesSubdomainRegex] at h
          subst hc; exact Or.inl h
      | cons b2 rest2 =>
          simp only [matchesSubdomainRegex, Bool.and_eq_true] at h
          intro c hc
          rcases List.mem_cons.mp hc with hc | hc
          · subst hc; exact Or.inl h.1
          · exact tailMatch_chars h.2 c hc

/-! ## Process environments (isolation.go and the launch paths)

Environment entries are modelled as (name, value) pairs standing for
Go's "NAME=value" strings. -/

/-- Decimal rendering used for `fmt.Sprintf("PORT=%d", port)` etc. -/
def natToGoString (n : Nat) : GoString := gs (toString n)

/-- Translation of `IsolationConfig` (isolation.go lines 21-27); the Go
`map[string]string` of secrets is an association list. -/
structure IsolationConfig where
  projectID : Nat
  subdomain : GoString
  projectPath : GoString
  port : Nat
  secrets : List (GoString × GoString)

/-- Translation of `prepareEnvironment` (isolation.go lines 129-146):
the minimal environment of the isolation service — fixed PATH, HOME,
USER, SHELL, plus PORT, PROJECT_ID, SUBDOMAIN and the decrypted
secrets, nothing else. -/
def prepareEnvironment (config : IsolationConfig) : List (GoString × GoString) :=
  [(gs "PORT", natToGoString config.port),
   (gs "PATH", gs "/usr/bin:/bin"),
   (gs "HOME", gs "/tmp"),
   (gs "USER", gs "nobody"),
   (gs "SHELL", gs "/bin/false"),
   (gs "PROJECT_ID", natToGoString config.projectID),
   (gs "SUBDOMAIN", config.subdomain)]
  ++ config.secrets

/-- Translation of the environment built by `startApplication`
(part_008 lines 309-310): `cmd.Env = append(os.Environ(), envVars...)`
followed by appending PORT — the parent process's entire environment
comes first. No launch path of the repository calls
`CreateIsolatedProcess`/`prepareEnvironment`. -/
def startApplicationEnv (parentEnv envVars : List (GoString × GoString)) (port : Nat) :
    List (GoString × GoString) :=
  parentEnv ++ envVars ++ [(gs "PORT", natToGoString port)]

/-- Translation of the environment built by `startService`
(deployment.go lines 131-134): again `append(os.Environ(), ...)`. -/
def startServiceEnv (parentEnv : List (GoString × GoString)) (port : Nat)
    (subdomain : GoString) : List (GoString × GoString) :=
  parentEnv ++ [(gs "PORT", natToGoString port), (gs "SUBDOMAIN", subdomain)]

/-! ## Stop versus the per-process monitor (part_008) -/

/-- Project status constant "active" (models.go). -/
def ProjectStatusActive : String := "active"

/-- Project status constant "inactive" (models.go). -/
def ProjectStatusInactive : String := "inactive"

/-- Project status constant "failed" (models.go). -/
def ProjectStatusFailed : String := "failed"

/-- Deployment status constant "failed" (models.go). -/
def StatusFailed : String := "failed"

/-- Deployment status constant "success" (models.go). -/
def StatusSuccess : String := "success"

/-- Orchestrator state for one project: the `d.processes` map (as the
set of subdomains with a tracked process), the persisted project status
column, and whether the tracked process was killed — in which case the
monitor's `cmd.Wait()` returns a non-nil error. -/
structure OrchestratorState where
  processes : List String
  status : String
  procKilled : Bool
  deriving Repr, DecidableEq

/-- Translation of `stopProjectProcess` (part_008 lines 374-384): kill
the tracked process and delete it from the map. -/
def stopProjectProcess (st : OrchestratorState) (subdomain : String) : OrchestratorState :=
  if subdomain ∈ st.processes then
    { st with processes := st.processes.erase subdomain, procKilled := true }
  else st

/-- Translation of `StopProject` (part_008 lines 521-536): stop the
process, then set the project status to inactive. -/
def StopProject (st : OrchestratorState) (subdomain : String) : OrchestratorState :=
  let st1 := stopProjectProcess st subdomain
  { st1 with status := ProjectStatusInactive }

/-- Translation of the monitoring goroutine body of `startApplication`
(part_008 lines 341-360): when `cmd.Wait()` returns a non-nil error —
which it does for a killed process — the project is marked failed,
otherwise inactive. The code keeps no flag distinguishing a deliberate
Stop from a crash. Modelled at the interleaving where the monitor
observes the exit after Stop has written its status (the usual
schedule: `Kill` returns once the signal is sent, `Wait` returns only
after the process died). -/
def monitorOnExit (st : OrchestratorState) (subdomain : String) : OrchestratorState :=
  let waitErr := st.procKilled
  let st1 := { st with processes := st.processes.erase subdomain }
  if waitErr then { st1 with status := ProjectStatusFailed }
  else { st1 with status := ProjectStatusInactive }

/-! ## Proxy handler cache (proxy.go) -/

/-- The proxy cache `p.proxies`: subdomain → the local port the cached
`httputil.ReverseProxy` forwards to. -/
structure ProxyState where
  proxies : List (String × Nat)
  deriving Repr, DecidableEq

/-- Translation of `getOrCreateProxy` (proxy.go lines 153-214): return
the cached handler if one exists — ignoring the port argument —
otherwise build a handler bound to localhost:port and cache it.
Returns the updated cache and the port the handler forwards to. -/
def getOrCreateProxy (ps : ProxyState) (subdomain : String) (port : Nat) : ProxyState × Nat :=
  match ps.proxies.lookup subdomain with
  | some cachedPort => (ps, cachedPort)
  | none => (⟨(subdomain, port) :: ps.proxies⟩, port)

/-- Translation of `RemoveProxy` (proxy.go lines 216-221). No function
of the repository calls it: neither `StopProject` nor `DeleteProject`
(part_008 lines 521-561) nor any handler invalidates the cache. -/
def RemoveProxy (ps : ProxyState) (subdomain : String) : ProxyState :=
  ⟨ps.proxies.filter (fun e => e.1 != subdomain)⟩

/-- Combined effect of `StopProject` on orchestrator and proxy state:
the proxy cache is untouched, because `StopProject` never calls
`RemoveProxy` (the same holds for `DeleteProject`). -/
def StopProjectSystem (st : OrchestratorState × ProxyState) (subdomain : String) :
    OrchestratorState × ProxyState :=
  (StopProject st.1 subdomain, st.2)

/-! ## The deployment pipeline (part_008, `performDeployment`)

The pipeline's effectful steps (process kill, directory removal and
creation, git clone/checkout, build, launch) are modelled by a world of
step outcomes handed to the function; the structured build log is the
list of lines written to it (timestamps and durations elided), and the
deferred status-update block is the `finishDeployment` epilogue. -/

/-- The project columns read by the deployment service (part_008 lines
46-59). -/
structure ProjectInfo where
  name : String
  repoURL : String
  branch : String
  subdomain : String
  buildCommand : String
  startCommand : String
  port : Nat
  deriving Repr, DecidableEq

/-- Outcome of the `os.Stat(deployDir)` verification: success, an
`IsNotExist` error, or some other error (which the Go code leaves in
`err` while continuing). -/
inductive StatResult
  | ok
  | notExist
  | otherErr (msg : String)
  deriving Repr, DecidableEq

/-- The outcomes of the pipeline's effectful steps. -/
structure StepOutcomes where
  removeDirErr : Option String
  mkdirErr : Option String
  cloneOutput : String
  cloneErr : Option String
  statResult : StatResult
  checkoutOutput : String
  checkoutErr : Option String
  envVars : List (String × String)
  buildOutput : String
  buildErr : Option String
  startErr : Option String
  deriving Repr, DecidableEq

/-- The pipeline stages, in source order, used to record which blocks of
`performDeployment` actually ran. -/
inductive PipelineStep
  | stopPrev
  | dirSetup
  | clone
  | verifyDir
  | checkout
  | loadEnv
  | build
  | launch
  deriving Repr, DecidableEq

/-- Position of a stage in the source order of `performDeployment`. -/
def stepOrder : PipelineStep → Nat
  | .stopPrev => 0
  | .dirSetup => 1
  | .clone => 2
  | .verifyDir => 3
  | .checkout => 4
  | .loadEnv => 5
  | .build => 6
  | .launch => 7

/-- The observable result of one pipeline run: the project status and
deployment status written by the deferred epilogue, the persisted build
log and error message, and the stages that ran. -/
structure DeployOutcome where
  projectStatus : String
  deploymentStatus : String
  buildLog : List String
  errorMsg : String
  executed : List PipelineStep
  deriving Repr, DecidableEq

/-- `strings.Fields` restricted to the single-space separators relevant
here. -/
def goFields (s : String) : List String := (s.splitOn " ").filter (fun t => t != "")

/-- Translation of the deferred block of `performDeployment` (part_008
lines 135-154): on a non-nil error mark the deployment and project
failed, persisting the log and the error message; otherwise mark them
success/active. -/
def finishDeployment (log : List String) (executed : List PipelineStep)
    (err : Option String) : DeployOutcome :=
  match err with
  | some e =>
      { projectStatus := ProjectStatusFailed
        deploymentStatus := StatusFailed
        buildLog := log ++ ["=== DEPLOYMENT FAILED ===", "Error: " ++ e]
        errorMsg := e
        executed := executed }
  | none =>
      { projectStatus := ProjectStatusActive
        deploymentStatus := StatusSuccess
        buildLog := log ++ ["=== DEPLOYMENT SUCCESSFUL ==="]
        errorMsg := ""
        executed := executed }

/-- Translation of the launch section of `performDeployment` (part_008
lines 274-291): `startApplication` failure aborts with an error;
otherwise the run completes carrying any error still left in `err` from
the directory verification. -/
def deployLaunch (p : ProjectInfo) (w : StepOutcomes) (log : List String)
    (executed : List PipelineStep) (errCarry : Option String) : DeployOutcome :=
  let executed := executed ++ [PipelineStep.launch]
  let log := log ++ ["🚀 Starting application with command: " ++ p.startCommand ++ "..."]
  match w.startErr with
  | some e =>
      finishDeployment (log ++ ["❌ Failed to start application: " ++ e]) executed
        (some ("failed to start application: " ++ e))
  | none =>
      finishDeployment
        (log ++ ["🎉 Application started successfully on port " ++ toString p.port ++ "!",
          "🌐 Project is now available at: http://" ++ p.subdomain])
        executed errCarry

/-- Translation of the environment-loading and build sections of
`performDeployment` (part_008 lines 236-272): an empty build command or
a failing build aborts the run. -/
def deployBuild (p : ProjectInfo) (w : StepOutcomes) (log : List String)
    (executed : List PipelineStep) (errCarry : Option String) : DeployOutcome :=
  let executed := executed ++ [PipelineStep.loadEnv]
  let log := log ++ ["🔧 Loaded " ++ toString w.envVars.length ++ " environment variables"]
  let executed := executed ++ [PipelineStep.build]
  let log := log ++ ["🔨 Building project with command: " ++ p.buildCommand ++ "..."]
  if (goFields p.buildCommand).isEmpty then
    finishDeployment (log ++ ["❌ Build command is empty"]) executed
      (some "build command is empty")
  else
    let log := log ++ [w.buildOutput]
    match w.buildErr with
    | some e =>
        finishDeployment (log ++ ["❌ Build failed: " ++ e]) executed
          (some ("build failed: " ++ e))
    | none => deployLaunch p w (log ++ ["✅ Build completed successfully!"]) executed errCarry

/-- Translation of the checkout section of `performDeployment` (part_008
lines 211-234): the checkout runs only when a commit was requested, and
its failure aborts the run. -/
def deployCheckout (p : ProjectInfo) (commitSHA : String) (w : StepOutcomes)
    (log : List String) (executed : List PipelineStep) (errCarry : Option String) :
    DeployOutcome :=
  if commitSHA = "" then
    deployBuild p w (log ++ ["ℹ️  Using latest commit from branch " ++ p.branch])
      executed errCarry
  else
    let executed := executed ++ [PipelineStep.checkout]
    let log := log ++ ["🔄 Checking out commit " ++ commitSHA ++ "...", w.checkoutOutput]
    match w.checkoutErr with
    | some e =>
        finishDeployment (log ++ ["❌ Git checkout failed: " ++ e]) executed
          (some ("git checkout failed: " ++ e))
    | none => deployBuild p w (log ++ ["✅ Checked out commit"]) executed errCarry

/-- Translation of `performDeployment` (part_008 lines 115-291): header,
stop of prior processes, directory setup (`RemoveAll` failure only
warns, `MkdirAll` failure aborts), clone, directory verification (note
the Go code assigns the `Stat` result to the function-scoped `err` and
continues when the error is not `IsNotExist`), then checkout, build and
launch. -/
def performDeployment (deploymentRoot : String) (p : ProjectInfo) (commitSHA : String)
    (w : StepOutcomes) : DeployOutcome :=
  let deployDir := deploymentRoot ++ "/" ++ p.subdomain
  let log := ["=== Deployment for " ++ p.name ++ " ===",
    "Repository: " ++ p.repoURL,
    "Branch: " ++ p.branch,
    "Subdomain: " ++ p.subdomain,
    "==========================================="]
  let log := log ++ ["🛑 Stopping existing processes...", "✅ Existing processes stopped"]
  let executed := [PipelineStep.stopPrev]
  let log := log ++ ["📁 Setting up deployment directory: " ++ deployDir]
  let log := match w.removeDirErr with
    | some e => log ++ ["⚠️  Warning: Failed to remove existing directory: " ++ e]
    | none => log
  let executed := executed ++ [PipelineStep.dirSetup]
  match w.mkdirErr with
  | some e =>
      finishDeployment (log ++ ["❌ Failed to create deployment directory: " ++ e])
        executed (some e)
  | none =>
    let log := log ++ ["✅ Deployment directory created"]
    let executed := executed ++ [PipelineStep.clone]
    let log := log ++ ["📥 Cloning repository " ++ p.repoURL ++ " (branch: " ++ p.branch
      ++ ")...", w.cloneOutput]
    match w.cloneErr with
    | some e =>
        finishDeployment (log ++ ["❌ Git clone failed: " ++ e]) executed
          (some ("git clone failed: " ++ e))
    | none =>
      let log := log ++ ["✅ Repository cloned"]
      let executed := executed ++ [PipelineStep.verifyDir]
      match w.statResult with
      | StatResult.notExist =>
          finishDeployment (log ++ ["❌ Deployment directory does not exist: " ++ deployDir])
            executed (some ("deployment directory does not exist: " ++ deployDir))
      | StatResult.ok =>
          deployCheckout p commitSHA w (log ++ ["✅ Deployment directory verified"])
            executed none
      | StatResult.otherErr m =>
          deployCheckout p commitSHA w (log ++ ["✅ Deployment directory verified"])
            executed (some m)

/-- The failing steps enumerated by the claim. -/
def claimSteps : List PipelineStep :=
  [PipelineStep.dirSetup, PipelineStep.clone, PipelineStep.checkout,
   PipelineStep.build, PipelineStep.launch]

/-- The first step of a pipeline run that fails, given the world of step
outcomes (none when the run succeeds; `verifyDir` is the `Stat`
IsNotExist abort, which the claim does not enumerate). -/
def firstFailingStep (commitSHA buildCommand : String) (w : StepOutcomes) :
    Option PipelineStep :=
  if w.mkdirErr.isSome then some PipelineStep.dirSetup
  else if w.cloneErr.isSome then some PipelineStep.clone
  else if w.statResult = StatResult.notExist then some PipelineStep.verifyDir
  else if commitSHA ≠ "" ∧ w.checkoutErr.isSome then some PipelineStep.checkout
  else if (goFields buildCommand).isEmpty then some PipelineStep.build
  else if w.buildErr.isSome then some PipelineStep.build
  else if w.startErr.isSome then some PipelineStep.launch
  else none

theorem string_append_ne_empty (s t : String) (h : s ≠ "") : s ++ t ≠ "" := by
  intro he
  apply h
  have hd := congrArg String.data he
  rw [String.data_append s t] at hd
  have h1 : s.data = [] := (List.append_eq_nil.mp hd).1
  cases s with
  | mk d =>
      simp only [String.data] at h1
      subst h1
      rfl

theorem finishDeployment_failed (log : List String) (executed : List PipelineStep)
    (e : String) (he : e ≠ "") :
    (finishDeployment log executed (some e)).projectStatus = ProjectStatusFailed ∧
    (finishDeployment log executed (some e)).deploymentStatus = StatusFailed ∧
    (finishDeployment log executed (some e)).buildLog ≠ [] ∧
    (finishDeployment log executed (some e)).errorMsg ≠ "" ∧
    (finishDeployment log executed (some e)).executed = executed := by
  refine ⟨rfl, rfl, ?_, he, rfl⟩
  simp [finishDeployment]

/-- C4: if any of the claim's enumerated pipeline steps fails (directory
setup, clone, checkout, build, or launch), the remaining steps do not
run (every stage that ran precedes or is the failing one), the project
status becomes failed, and the deployment becomes failed with a
non-empty partial log and a non-empty error message. Go error values
render non-empty messages; hypothesis `hmk` records this for the one
error message passed through verbatim (the `os.MkdirAll` error). -/
theorem performDeployment_failure_aborts (deploymentRoot : String) (p : ProjectInfo)
    (commitSHA : String) (w : StepOutcomes) (f : PipelineStep)
    (hf : firstFailingStep commitSHA p.buildCommand w = some f)
    (hclaim : f ∈ claimSteps)
    (hmk : ∀ e, w.mkdirErr = some e → e ≠ "") :
    (performDeployment deploymentRoot p commitSHA w).projectStatus = ProjectStatusFailed ∧
    (performDeployment deploymentRoot p commitSHA w).deploymentStatus = StatusFailed ∧
    (performDeployment deploymentRoot p commitSHA w).buildLog ≠ [] ∧
    (performDeployment deploymentRoot p commitSHA w).errorMsg ≠ "" ∧
    f ∈ (performDeployment deploymentRoot p commitSHA w).executed ∧
    ∀ st ∈ (performDeployment deploymentRoot p commitSHA w).executed,
      stepOrder st ≤ stepOrder f := by
  unfold firstFailingStep at hf
  split_ifs at hf with h1 h2 h3 h4 h5 h6 h7
  · -- directory setup: MkdirAll fails
    obtain ⟨e, he⟩ := Option.isSome_iff_exists.mp h1
    injection hf with hfe
    subst hfe
    simp only [performDeployment, he, finishDeployment]
    exact ⟨by simp, by simp, by simp, hmk e he, by simp, by decide⟩
  · -- clone fails
    obtain ⟨e, he⟩ := Option.isSome_iff_exists.mp h2
    have h1n : w.mkdirErr = none := Option.not_isSome_iff_eq_none.mp h1
    injection hf with hfe
    subst hfe
    simp only [performDeployment, h1n, he, finishDeployment]
    exact ⟨by simp, by simp, by simp, string_append_ne_empty _ _ (by decide), by simp, by decide⟩
  · -- Stat IsNotExist: not one of the claim's enumerated steps
    injection hf with hfe
    subst hfe
    exact absurd hclaim (by decide)
  · -- checkout fails (a commit was requested)
    obtain ⟨hsha, hco⟩ := h4
    obtain ⟨e, he⟩ := Option.isSome_iff_exists.mp hco
    have h1n : w.mkdirErr = none := Option.not_isSome_iff_eq_none.mp h1
    have h2n : w.cloneErr = none := Option.not_isSome_iff_eq_none.mp h2
    injection hf with hfe
    subst hfe
    cases hst : w.statResult with
    | notExist => exact absurd hst h3
    | ok =>
        simp only [performDeployment, h1n, h2n, hst, deployCheckout, if_neg hsha, he,
          finishDeployment]
        exact ⟨by simp, by simp, by simp, string_append_ne_empty _ _ (by decide), by simp, by decide⟩
    | otherErr m =>
        simp only [performDeployment, h1n, h2n, hst, deployCheckout, if_neg hsha, he,
          finishDeployment]
        exact ⟨by simp, by simp, by simp, string_append_ne_empty _ _ (by decide), by simp, by decide⟩
  · -- build command empty
    have h1n : w.mkdirErr = none := Option.not_isSome_iff_eq_none.mp h1
    have h2n : w.cloneErr = none := Option.not_isSome_iff_eq_none.mp h2
    injection hf with hfe
    subst hfe
    have hbuild : ∀ (log : List String) (executed : List PipelineStep) (ec : Option String),
        (deployBuild p w log executed ec).projectStatus = ProjectStatusFailed ∧
        (deployBuild p w log executed ec).deploymentStatus = StatusFailed ∧
        (deployBuild p w log executed ec).buildLog ≠ [] ∧
        (deployBuild p w log executed ec).errorMsg ≠ "" ∧
        (deployBuild p w log executed ec).executed
          = executed ++ [PipelineStep.loadEnv, PipelineStep.build] := by
      intro log executed ec
      simp only [deployBuild, h5, if_true, finishDeployment]
      exact ⟨by simp, by simp, by simp, by decide, by simp⟩
    cases hst : w.statResult with
    | notExist => exact absurd hst h3
    | ok =>
        by_cases hsha : commitSHA = ""
        · simp only [performDeployment, h1n, h2n, hst, deployCheckout, hsha, if_true]
          obtain ⟨ha, hb, hc, hd, hexec⟩ := hbuild _ _ none
          refine ⟨ha, hb, hc, hd, ?_, ?_⟩ <;> rw [hexec] <;> decide
        · have hco : w.checkoutErr = none := by
            cases hcoe : w.checkoutErr with
            | none => rfl
            | some e => exact absurd ⟨hsha, by simp [hcoe]⟩ h4
          simp only [performDeployment, h1n, h2n, hst, deployCheckout, if_neg hsha, hco]
          obtain ⟨ha, hb, hc, hd, hexec⟩ := hbuild _ _ none
          refine ⟨ha, hb, hc, hd, ?_, ?_⟩ <;> rw [hexec] <;> decide
    | otherErr m =>
        by_cases hsha : commitSHA = ""
        · simp only [performDeployment, h1n, h2n, hst, deployCheckout, hsha, if_true]
          obtain ⟨ha, hb, hc, hd, hexec⟩ := hbuild _ _ (some m)
          refine ⟨ha, hb, hc, hd, ?_, ?_⟩ <;> rw [hexec] <;> decide
        · have hco : w.checkoutErr = none := by
            cases hcoe : w.checkoutErr with
            | none => rfl
            | some e => exact absurd ⟨hsha, by simp [hcoe]⟩ h4
          simp only [performDeployment, h1n, h2n, hst, deployCheckout, if_neg hsha, hco]
          obtain ⟨ha, hb, hc, hd, hexec⟩ := hbuild _ _ (some m)
          refine ⟨ha, hb, hc, hd, ?_, ?_⟩ <;> rw [hexec] <;> decide
  · -- build command runs and fails
    obtain ⟨e, he⟩ := Option.isSome_iff_exists.mp h6
    have h1n : w.mkdirErr = none := Option.not_isSome_iff_eq_none.mp h1
    have h2n : w.cloneErr = none := Option.not_isSome_iff_eq_none.mp h2
    injection hf with hfe
    subst hfe
    have hbuild : ∀ (log : List String) (executed : List PipelineStep) (ec : Option String),
        (deployBuild p w log executed ec).projectStatus = ProjectStatusFailed ∧
        (deployBuild p w log executed ec).deploymentStatus = StatusFailed ∧
        (deployBuild p w log executed ec).buildLog ≠ [] ∧
        (deployBuild p w log executed ec).errorMsg ≠ "" ∧
        (deployBuild p w log executed ec).executed
          = executed ++ [PipelineStep.loadEnv, PipelineStep.build] := by
      intro log executed ec
      simp only [deployBuild, h5, if_false, Bool.false_eq_true, he, finishDeployment]
      exact ⟨by simp, by simp, by simp, string_append_ne_empty _ _ (by decide), by simp⟩
    cases hst : w.statResult with
    | notExist => exact absurd hst h3
    | ok =>
        by_cases hsha : commitSHA = ""
        · simp only [performDeployment, h1n, h2n, hst, deployCheckout, hsha, if_true]
          obtain ⟨ha, hb, hc, hd, hexec⟩ := hbuild _ _ none
          refine ⟨ha, hb, hc, hd, ?_, ?_⟩ <;> rw [hexec] <;> decide
        · have hco : w.checkoutErr = none := by
            cases hcoe : w.checkoutErr with
            | none => rfl
            | some e => exact absurd ⟨hsha, by simp [hcoe]⟩ h4
          simp only [performDeployment, h1n, h2n, hst, deployCheckout, if_neg hsha, hco]
          obtain ⟨ha, hb, hc, hd, hexec⟩ := hbuild _ _ none
          refine ⟨ha, hb, hc, hd, ?_, ?_⟩ <;> rw [hexec] <;> decide
    | otherErr m =>
        by_cases hsha : commitSHA = ""
        · simp only [performDeployment, h1n, h2n, hst, deployCheckout, hsha, if_true]
          obtain ⟨ha, hb, hc, hd, hexec⟩ := hbuild _ _ (some m)
          refine ⟨ha, hb, hc, hd, ?_, ?_⟩ <;> rw [hexec] <;> decide
        · have hco : w.checkoutErr = none := by
            cases hcoe : w.checkoutErr with
            | none => rfl
            | some e => exact absurd ⟨hsha, by simp [hcoe]⟩ h4
          simp only [performDeployment, h1n, h2n, hst, deployCheckout, if_neg hsha, hco]
          obtain ⟨ha, hb, hc, hd, hexec⟩ := hbuild _ _ (some m)
          refine ⟨ha, hb, hc, hd, ?_, ?_⟩ <;> rw [hexec] <;> decide
  · -- launch fails
    obtain ⟨e, he⟩ := Option.isSome_iff_exists.mp h7
    have h1n : w.mkdirErr = none := Option.not_isSome_iff_eq_none.mp h1
    have h2n : w.cloneErr = none := Option.not_isSome_iff_eq_none.mp h2
    have h6n : w.buildErr = none := Option.not_isSome_iff_eq_none.mp h6
    injection hf with hfe
    subst hfe
    have hlaunch : ∀ (log : List String) (executed : List PipelineStep) (ec : Option String),
        (deployBuild p w log executed ec).projectStatus = ProjectStatusFailed ∧
        (deployBuild p w log executed ec).deploymentStatus = StatusFailed ∧
        (deployBuild p w log executed ec).buildLog ≠ [] ∧
        (deployBuild p w log executed ec).errorMsg ≠ "" ∧
        (deployBuild p w log executed ec).executed
          = executed ++ [PipelineStep.loadEnv, PipelineStep.build, PipelineStep.launch] := by
      intro log executed ec
      simp only [deployBuild, h5, if_false, Bool.false_eq_true, h6n, deployLaunch, he,
        finishDeployment]
      exact ⟨by simp, by simp, by simp, string_append_ne_empty _ _ (by decide), by simp⟩
    cases hst : w.statResult with
    | notExist => exact absurd hst h3
    | ok =>
        by_cases hsha : commitSHA = ""
        · simp only [performDeployment, h1n, h2n, hst, deployCheckout, hsha, if_true]
          obtain ⟨ha, hb, hc, hd, hexec⟩ := hlaunch _ _ none
          refine ⟨ha, hb, hc, hd, ?_, ?_⟩ <;> rw [hexec] <;> decide
        · have hco : w.checkoutErr = none := by
            cases hcoe : w.checkoutErr with
            | none => rfl
            | some e => exact absurd ⟨hsha, by simp [hcoe]⟩ h4
          simp only [performDeployment, h1n, h2n, hst, deployCheckout, if_neg hsha, hco]
          obtain ⟨ha, hb, hc, hd, hexec⟩ := hlaunch _ _ none
          refine ⟨ha, hb, hc, hd, ?_, ?_⟩ <;> rw [hexec] <;> decide
    | otherErr m =>
        by_cases hsha : commitSHA = ""
        · simp only [performDeployment, h1n, h2n, hst, deployCheckout, hsha, if_true]
          obtain ⟨ha, hb, hc, hd, hexec⟩ := hlaunch _ _ (some m)
          refine ⟨ha, hb, hc, hd, ?_, ?_⟩ <;> rw [hexec] <;> decide
        · have hco : w.checkoutErr = none := by
            cases hcoe : w.checkoutErr with
            | none => rfl
            | some e => exact absurd ⟨hsha, by simp [hcoe]⟩ h4
          simp only [performDeployment, h1n, h2n, hst, deployCheckout, if_neg hsha, hco]
          obtain ⟨ha, hb, hc, hd, hexec⟩ := hlaunch _ _ (some m)
          refine ⟨ha, hb, hc, hd, ?_, ?_⟩ <;> rw [hexec] <;> decide

/-- A concrete project for the pipeline witness. -/
def demoProject : ProjectInfo :=
  ⟨"demo", "https://github.com/u/demo", "main", "demo-ab12", "go build", "./app", 3000⟩

/-- A concrete world whose git clone fails and whose later steps would
succeed if they ran. -/
def demoCloneFailWorld : StepOutcomes :=
  { removeDirErr := none
    mkdirErr := none
    cloneOutput := "fatal: repository not found"
    cloneErr := some "exit status 128"
    statResult := StatResult.ok
    checkoutOutput := ""
    checkoutErr := none
    envVars := []
    buildOutput := ""
    buildErr := none
    startErr := none }

/-- Witness for C4: the concrete clone failure aborts the pipeline with
failed statuses, a non-empty log and error, and no stage past the clone. -/
theorem performDeployment_failure_aborts_witness :
    (performDeployment "/deployments" demoProject "" demoCloneFailWorld).projectStatus
        = ProjectStatusFailed ∧
    (performDeployment "/deployments" demoProject "" demoCloneFailWorld).deploymentStatus
        = StatusFailed ∧
    (performDeployment "/deployments" demoProject "" demoCloneFailWorld).buildLog ≠ [] ∧
    (performDeployment "/deployments" demoProject "" demoCloneFailWorld).errorMsg ≠ "" ∧
    PipelineStep.clone
        ∈ (performDeployment "/deployments" demoProject "" demoCloneFailWorld).executed ∧
    ∀ st ∈ (performDeployment "/deployments" demoProject "" demoCloneFailWorld).executed,
      stepOrder st ≤ stepOrder PipelineStep.clone :=
  performDeployment_failure_aborts "/deployments" demoProject "" demoCloneFailWorld
    PipelineStep.clone (by decide) (by decide) (fun e he => by simp [demoCloneFailWorld] at he)

/-! ## Secret listing and bulk deployment-time loading (part_005)

The database layer is modelled by handing the functions the rows their
SQL queries return; the DB uniqueness constraint
UNIQUE(project_id, key_name) appears as a Nodup hypothesis on keys. -/

/-- A row of the secrets table as scanned by `GetProjectSecrets`
(part_005 lines 136-142); timestamps are abstract numbers. -/
structure Secret where
  id : Nat
  projectID : Nat
  keyName : String
  encryptedValue : GoString
  description : String
  createdAt : Nat
  updatedAt : Nat
  deriving Repr, DecidableEq

/-- The masked listing entry built by `GetProjectSecrets`
(part_005 lines 151-159). -/
structure SecretDisplay where
  id : Nat
  projectID : Nat
  keyName : String
  maskedValue : GoString
  description : String
  createdAt : Nat
  updatedAt : Nat
  deriving Repr, DecidableEq

/-- Translation of `GetProjectSecrets` (part_005 lines 125-163): each row
is decrypted to recover the original length for masking; a row that fails
to decrypt uses the default mask "********" instead, and is still
returned. -/
def GetProjectSecrets (s : SecretsService) (rows : List Secret) : List SecretDisplay :=
  rows.map fun secret =>
    { id := secret.id
      projectID := secret.projectID
      keyName := secret.keyName
      maskedValue :=
        maskValue (match s.decrypt secret.encryptedValue with
          | some v => v
          | none => gs "********")
      description := secret.description
      createdAt := secret.createdAt
      updatedAt := secret.updatedAt }

/-- Go map assignment `m[k] = v`: overwrite an existing entry for k,
otherwise add one. -/
def mapInsert (m : List (String × GoString)) (k : String) (v : GoString) :
    List (String × GoString) :=
  if k ∈ m.map Prod.fst then m.map (fun p => if p.1 = k then (k, v) else p)
  else m ++ [(k, v)]

/-- The row loop of `GetProjectSecretsForDeployment` (part_005 lines
245-260): a row that fails to decrypt is skipped (the Go code logs a
warning and continues), a row that decrypts is written into the map. -/
def deploymentSecretsLoop (s : SecretsService) :
    List (String × GoString) → List (String × GoString) → List (String × GoString)
  | acc, [] => acc
  | acc, (keyName, encryptedValue) :: rest =>
      match s.decrypt encryptedValue with
      | some v => deploymentSecretsLoop s (mapInsert acc keyName v) rest
      | none => deploymentSecretsLoop s acc rest

/-- Translation of `GetProjectSecretsForDeployment` (part_005 lines
235-263): build the decrypted key→value map from the project's rows and
return it with a nil error (`return secrets, nil`). -/
def GetProjectSecretsForDeployment (s : SecretsService) (rows : List (String × GoString)) :
    Except String (List (String × GoString)) :=
  Except.ok (deploymentSecretsLoop s [] rows)

theorem mapInsert_of_fresh {m : List (String × GoString)} {k : String} (v : GoString)
    (h : k ∉ m.map Prod.fst) : mapInsert m k v = m ++ [(k, v)] := by
  unfold mapInsert
  rw [if_neg h]

theorem deploymentSecretsLoop_mem (s : SecretsService) (k : String) (v : GoString) :
    ∀ (rows acc : List (String × GoString)),
      (rows.map Prod.fst).Nodup →
      (∀ p ∈ acc, p.1 ∉ rows.map Prod.fst) →
      ((k, v) ∈ deploymentSecretsLoop s acc rows ↔
        (k, v) ∈ acc ∨ ∃ ev, (k, ev) ∈ rows ∧ s.decrypt ev = some v) := by
  intro rows
  induction rows with
  | nil =>
      intro acc _ _
      simp [deploymentSecretsLoop]
  | cons row rest ih =>
      intro acc hnd hdisj
      obtain ⟨k1, ev1⟩ := row
      have hk1 : k1 ∉ rest.map Prod.fst := by
        have := hnd
        simp only [List.map_cons, List.nodup_cons] at this
        exact this.1
      have hndrest : (rest.map Prod.fst).Nodup := by
        have := hnd
        simp only [List.map_cons, List.nodup_cons] at this
        exact this.2
      cases hdec : s.decrypt ev1 with
      | none =>
          have hrest := ih acc hndrest (fun p hp => by
            have := hdisj p hp
            simp only [List.map_cons, List.mem_cons] at this
            exact fun hmem => this (Or.inr hmem))
          simp only [deploymentSecretsLoop, hdec]
          rw [hrest]
          constructor
          · rintro (hacc | ⟨ev, hev, hdev⟩)
            · exact Or.inl hacc
            · exact Or.inr ⟨ev, List.mem_cons_of_mem _ hev, hdev⟩
          · rintro (hacc | ⟨ev, hev, hdev⟩)
            · exact Or.inl hacc
            · rcases List.mem_cons.mp hev with heq | hmem
              · injection heq with heqk heqv
                subst heqk; subst heqv
                rw [hdec] at hdev
                exact absurd hdev (by simp)
              · exact Or.inr ⟨ev, hmem, hdev⟩
      | some v1 =>
          have hfresh : k1 ∉ acc.map Prod.fst := by
            intro hmem
            rcases List.mem_map.mp hmem with ⟨p, hp, hpk⟩
            have := hdisj p hp
            simp only [List.map_cons, List.mem_cons] at this
            exact this (Or.inl hpk)
          have hins := mapInsert_of_fresh (m := acc) (k := k1) v1 hfresh
          have hdisj2 : ∀ p ∈ acc ++ [(k1, v1)], p.1 ∉ rest.map Prod.fst := by
            intro p hp
            rcases List.mem_append.mp hp with hp | hp
            · have := hdisj p hp
              simp only [List.map_cons, List.mem_cons] at this
              exact fun hmem => this (Or.inr hmem)
            · simp only [List.mem_singleton] at hp
              subst hp
              exact hk1
          have hrest := ih (acc ++ [(k1, v1)]) hndrest hdisj2
          simp only [deploymentSecretsLoop, hdec, hins]
          rw [hrest]
          constructor
          · rintro (hacc | ⟨ev, hev, hdev⟩)
            · rcases List.mem_append.mp hacc with hacc | hacc
              · exact Or.inl hacc
              · simp only [List.mem_singleton] at hacc
                injection hacc with heqk heqv
                subst heqk; subst heqv
                exact Or.inr ⟨ev1, List.mem_cons_self _ _, hdec⟩
            · exact Or.inr ⟨ev, List.mem_cons_of_mem _ hev, hdev⟩
          · rintro (hacc | ⟨ev, hev, hdev⟩)
            · exact Or.inl (List.mem_append.mpr (Or.inl hacc))
            · rcases List.mem_cons.mp hev with heq | hmem
              · injection heq with heqk heqv
                subst heqk; subst heqv
                rw [hdec] at hdev
                injection hdev with hv
                subst hv
                exact Or.inl (List.mem_append.mpr (Or.inr (by simp)))
              · exact Or.inr ⟨ev, hmem, hdev⟩

/-! ## Claim theorems for the secrets vault and validation -/

/-- C5: for every plaintext p, decrypt(encrypt(p)) returns p without
error; and two calls to encrypt(p) — each drawing a fresh random nonce,
modelled as the explicit distinct nonce arguments — produce different
ciphertexts. -/
theorem encrypt_decrypt_roundtrip_fresh_nonce (s : SecretsService) (n1 n2 p : GoString)
    (h1 : n1.length = nonceSize) (h2 : n2.length = nonceSize) (hne : n1 ≠ n2) :
    s.decrypt (s.encrypt n1 p) = some p ∧ s.encrypt n1 p ≠ s.encrypt n2 p := by
  have htake : ∀ (n rest : GoString), n.length = nonceSize →
      (n ++ rest).take nonceSize = n := by
    intro n rest hn
    rw [← hn]
    exact List.take_left n rest
  constructor
  · unfold SecretsService.encrypt SecretsService.decrypt
    have hlen : ¬ (n1 ++ gcmSeal s.encryptionKey n1 p).length < nonceSize := by
      simp only [List.length_append, h1]
      omega
    rw [if_neg hlen, htake _ _ h1]
    have hd : (n1 ++ gcmSeal s.encryptionKey n1 p).drop nonceSize
        = gcmSeal s.encryptionKey n1 p := by
      rw [← h1]
      exact List.drop_left n1 _
    rw [hd, gcmOpen_gcmSeal]
  · intro he
    apply hne
    have := congrArg (List.take nonceSize) he
    rwa [SecretsService.encrypt, SecretsService.encrypt, htake _ _ h1, htake _ _ h2] at this

/-- Witness for C5 at a concrete key, two concrete distinct nonces and a
concrete plaintext. -/
theorem encrypt_decrypt_roundtrip_fresh_nonce_witness :
    (NewSecretsService (gs "vault-key")).decrypt
        ((NewSecretsService (gs "vault-key")).encrypt (gs "abcdefghijkl") (gs "sk-12345"))
      = some (gs "sk-12345") ∧
    (NewSecretsService (gs "vault-key")).encrypt (gs "abcdefghijkl") (gs "sk-12345")
      ≠ (NewSecretsService (gs "vault-key")).encrypt (gs "mnopqrstuvwx") (gs "sk-12345") :=
  encrypt_decrypt_roundtrip_fresh_nonce _ _ _ _ (by decide) (by decide) (by decide)

/-- C6: the displayed mask is len(v) asterisks when len(v) ≤ 4, and
(len(v)-4) asterisks followed by the last 4 characters when len(v) > 4
(42 is the asterisk byte). -/
theorem maskValue_spec (v : GoString) :
    (v.length ≤ 4 → maskValue v = List.replicate v.length 42) ∧
    (4 < v.length → maskValue v = List.replicate (v.length - 4) 42 ++ lastChars 4 v) := by
  constructor
  · intro h
    simp [maskValue, h]
  · intro h
    have hlast : lastChars 4 v = v.drop (v.length - 4) := by
      unfold lastChars
      rw [List.reverse_take]
      simp
    rw [hlast]
    simp [maskValue, Nat.not_le.mpr h]

/-- Witness for C6 at the spec's Scenario B secret value. -/
theorem maskValue_spec_witness :
    maskValue (gs "sk-1234567890") = List.replicate 9 42 ++ lastChars 4 (gs "sk-1234567890") := by
  have h := (maskValue_spec (gs "sk-1234567890")).2 (by decide)
  simpa using h

/-- C7: subdomain validation accepts exactly the strings of length 1-63
matching [a-z0-9]([a-z0-9-]*[a-z0-9])?, and rejects every string with an
uppercase byte (65-90) or underscore (95) and every string whose length
is outside 1-63. -/
theorem isValidSubdomain_spec (s : GoString) :
    (isValidSubdomain s = true ↔
      (1 ≤ s.length ∧ s.length ≤ 63 ∧ matchesSubdomainRegex s = true)) ∧
    ((∃ b ∈ s, (65 ≤ b ∧ b ≤ 90) ∨ b = 95) → isValidSubdomain s = false) ∧
    ((s.length < 1 ∨ 63 < s.length) → isValidSubdomain s = false) := by
  have hchar : (∃ b ∈ s, (65 ≤ b ∧ b ≤ 90) ∨ b = 95) →
      matchesSubdomainRegex s = false := by
    rintro ⟨b, hb, hrange⟩
    by_contra hne
    have hm : matchesSubdomainRegex s = true := by
      cases hv : matchesSubdomainRegex s
      · exact absurd hv hne
      · rfl
    rcases matchesSubdomainRegex_chars hm b hb with halnum | hhyph
    · simp only [isLowerAlnum, Bool.or_eq_true, Bool.and_eq_true, decide_eq_true_eq] at halnum
      omega
    · omega
  refine ⟨?_, ?_, ?_⟩
  · unfold isValidSubdomain
    by_cases hlen : s.length < 1 || s.length > 63
    · rw [if_pos hlen]
      simp only [Bool.or_eq_true, decide_eq_true_eq] at hlen
      constructor
      · intro hfalse; exact absurd hfalse (by simp)
      · rintro ⟨ha, hb, _⟩; omega
    · rw [if_neg hlen]
      simp only [Bool.or_eq_true, decide_eq_true_eq, not_or, not_lt] at hlen
      refine ⟨fun h => ⟨hlen.1, by omega, h⟩, fun h => h.2.2⟩
  · intro hex
    unfold isValidSubdomain
    by_cases hlen : s.length < 1 || s.length > 63
    · rw [if_pos hlen]
    · rw [if_neg hlen]
      exact hchar hex
  · intro hlen
    unfold isValidSubdomain
    rw [if_pos]
    simp only [Bool.or_eq_true, decide_eq_true_eq]
    omega

/-- Witness for C7: the rejection branch applied to a concrete string
containing an underscore. -/
theorem isValidSubdomain_spec_witness :
    isValidSubdomain (gs "my_app") = false :=
  (isValidSubdomain_spec (gs "my_app")).2.1 ⟨95, by decide, Or.inr rfl⟩

/-- C9: the AES-256 key is the configured key string copied into a
zero-initialised 32-byte buffer — shorter keys zero-padded, longer keys
truncated — so two configured keys that agree on their first 32 bytes
after zero-padding yield identical encrypt and decrypt behaviour. -/
theorem newSecretsService_key_derivation (k1 k2 : GoString)
    (h : paddedKey32 k1 = paddedKey32 k2) :
    (NewSecretsService k1).encryptionKey = paddedKey32 k1 ∧
    (∀ nonce p, (NewSecretsService k1).encrypt nonce p = (NewSecretsService k2).encrypt nonce p) ∧
    (∀ c, (NewSecretsService k1).decrypt c = (NewSecretsService k2).decrypt c) := by
  have hk : NewSecretsService k1 = NewSecretsService k2 := by
    rw [newSecretsService_eq, newSecretsService_eq, h]
  refine ⟨by rw [newSecretsService_eq], fun nonce p => by rw [hk], fun c => by rw [hk]⟩

/-- Witness for C9: a 1-byte key and its explicit zero-padded 41-byte
extension encrypt identically. -/
theorem newSecretsService_key_derivation_witness :
    (NewSecretsService (gs "k")).encrypt (gs "abcdefghijkl") (gs "v")
      = (NewSecretsService (gs "k" ++ List.replicate 40 0)).encrypt (gs "abcdefghijkl") (gs "v") :=
  (newSecretsService_key_derivation (gs "k") (gs "k" ++ List.replicate 40 0)
    (by decide)).2.1 (gs "abcdefghijkl") (gs "v")

/-- C8: bulk deployment-time secret loading returns, without error, a
decrypted key-to-value map containing exactly the project's secrets that
decrypt successfully; entries that fail to decrypt are skipped. -/
theorem getProjectSecretsForDeployment_spec (s : SecretsService)
    (rows : List (String × GoString)) (hnd : (rows.map Prod.fst).Nodup) :
    ∃ m, GetProjectSecretsForDeployment s rows = Except.ok m ∧
      ∀ k v, ((k, v) ∈ m ↔ ∃ ev, (k, ev) ∈ rows ∧ s.decrypt ev = some v) := by
  refine ⟨deploymentSecretsLoop s [] rows, rfl, fun k v => ?_⟩
  have h := deploymentSecretsLoop_mem s k v rows [] hnd (by simp)
  simpa using h

/-- Witness for C8: two rows, one well-formed and one whose stored value
is too short to decrypt; the loading still succeeds. -/
theorem getProjectSecretsForDeployment_spec_witness :
    ∃ m, GetProjectSecretsForDeployment (NewSecretsService (gs "vault-key"))
        [("API_KEY", (NewSecretsService (gs "vault-key")).encrypt (gs "abcdefghijkl") (gs "val1")),
         ("BROKEN", [])]
      = Except.ok m ∧
      ∀ k v, ((k, v) ∈ m ↔ ∃ ev,
        (k, ev) ∈ [("API_KEY",
            (NewSecretsService (gs "vault-key")).encrypt (gs "abcdefghijkl") (gs "val1")),
          ("BROKEN", ([] : GoString))] ∧
        (NewSecretsService (gs "vault-key")).decrypt ev = some v) :=
  getProjectSecretsForDeployment_spec _ _ (by decide)

/-- C10: a listed secret whose ciphertext fails to decrypt is still
returned (no error: every row yields a display entry) and its masked
value is exactly 8 asterisks. -/
theorem getProjectSecrets_decrypt_failure_masked (s : SecretsService) (rows : List Secret)
    (sec : Secret) (hmem : sec ∈ rows) (hfail : s.decrypt sec.encryptedValue = none) :
    (GetProjectSecrets s rows).length = rows.length ∧
    ∃ d ∈ GetProjectSecrets s rows,
      d.id = sec.id ∧ d.keyName = sec.keyName ∧ d.maskedValue = List.replicate 8 42 := by
  constructor
  · simp [GetProjectSecrets]
  · refine ⟨_, List.mem_map_of_mem _ hmem, rfl, rfl, ?_⟩
    show maskValue (match s.decrypt sec.encryptedValue with
      | some v => v
      | none => gs "********") = List.replicate 8 42
    rw [hfail]
    decide

/-- Witness for C10: one row whose stored ciphertext is empty, hence
undecryptable. -/
theorem getProjectSecrets_decrypt_failure_masked_witness :
    (GetProjectSecrets (NewSecretsService (gs "vault-key"))
        [⟨7, 1, "API_KEY", [], "broken row", 0, 0⟩]).length = 1 ∧
    ∃ d ∈ GetProjectSecrets (NewSecretsService (gs "vault-key"))
        [⟨7, 1, "API_KEY", [], "broken row", 0, 0⟩],
      d.id = 7 ∧ d.keyName = "API_KEY" ∧ d.maskedValue = List.replicate 8 42 :=
  getProjectSecrets_decrypt_failure_masked (NewSecretsService (gs "vault-key"))
    [⟨7, 1, "API_KEY", [], "broken row", 0, 0⟩]
    ⟨7, 1, "API_KEY", [], "broken row", 0, 0⟩ (by simp) (by decide)

/-- C1 (divergence): the environment handed to a deployed process by
`startApplication` contains the parent process's variables — here the
vault key — while the unused isolation-service environment indeed
excludes them. The claim's "never includes the parent process's full
environment" fails on the launch path actually used. -/
theorem startApplication_env_leak :
    (gs "ENCRYPTION_KEY", gs "ambient-vault-key") ∈
      startApplicationEnv [(gs "ENCRYPTION_KEY", gs "ambient-vault-key")]
        [(gs "API_KEY", gs "sk-123")] 3000 ∧
    gs "ENCRYPTION_KEY" ∉
      (prepareEnvironment ⟨42, gs "demo", gs "/deployments/demo", 3000,
        [(gs "API_KEY", gs "sk-123")]⟩).map Prod.fst := by
  constructor
  · simp [startApplicationEnv]
  · decide

/-- C2 (divergence): after a deliberate Stop of a running project, the
monitor observes the killed process's non-nil Wait error and overwrites
the status Stop set (inactive) with failed. -/
theorem stop_then_monitor_marks_failed :
    (StopProject ⟨["demo"], ProjectStatusActive, false⟩ "demo").status
        = ProjectStatusInactive ∧
    (monitorOnExit (StopProject ⟨["demo"], ProjectStatusActive, false⟩ "demo") "demo").status
        = ProjectStatusFailed ∧
    ProjectStatusFailed ≠ ProjectStatusInactive := by
  refine ⟨rfl, rfl, by decide⟩

/-- C3 (divergence): stopping a project leaves its cached forwarding
handler in place (RemoveProxy is never called), and a later
`getOrCreateProxy` for the redeployed project on a new port still
returns the handler bound to the stale port 3000. -/
theorem stopProject_leaves_stale_proxy :
    ((StopProjectSystem (⟨["demo"], ProjectStatusActive, false⟩,
        (getOrCreateProxy ⟨[]⟩ "demo" 3000).1) "demo").2).proxies = [("demo", 3000)] ∧
    (getOrCreateProxy ((StopProjectSystem (⟨["demo"], ProjectStatusActive, false⟩,
        (getOrCreateProxy ⟨[]⟩ "demo" 3000).1) "demo").2) "demo" 4000).2 = 3000 := by
  refine ⟨rfl, rfl⟩

end GothDeploy
